import Mathlib

/-!
Verification of the md2web repository (Markdown to HTML converter).

The development shallowly embeds the JavaScript of `src/converter.js`
(the `Converter` class and the `FileWatcher` class) into Lean.  JavaScript
strings are modelled as `List Char`; JavaScript string primitives
(`includes`, `indexOf`, `substring`, `split`, `replace`, `trim`,
`toLowerCase`) are given executable Lean counterparts with the same
semantics on the inputs the program uses.  The `fs` module and the file
system are modelled as explicit function parameters; the `Map` objects of
the program are association lists with `Map.set` semantics.
-/

set_option maxRecDepth 8000

namespace Md2Web

/-- Decidable test that `pat` is an initial segment of `s`
(JavaScript `s.startsWith(pat)`). -/
def isPre : List Char → List Char → Bool
  | [], _ => true
  | _ :: _, [] => false
  | p :: ps, c :: cs => p = c && isPre ps cs

/-- Index of the first occurrence of `pat` in `s`, if any. -/
def findSub (pat : List Char) : List Char → Option Nat
  | [] => if pat.isEmpty then some 0 else none
  | c :: cs => if isPre pat (c :: cs) then some 0 else (findSub pat cs).map (· + 1)

/-- JavaScript `s.includes(pat)`. -/
def containsSub (s pat : List Char) : Bool := (findSub pat s).isSome

/-- JavaScript `s.indexOf(pat, start)`: first occurrence at or after
`start`, `-1` when there is none. -/
def jsIndexOf (s pat : List Char) (start : Nat) : Int :=
  match findSub pat (s.drop start) with
  | some j => ((start + j : Nat) : Int)
  | none => -1

/-- JavaScript `s.replace(pat, repl)` with a string pattern: replaces the
first occurrence only, returns `s` unchanged when `pat` does not occur. -/
def replFirst (pat repl s : List Char) : List Char :=
  match findSub pat s with
  | some j => s.take j ++ repl ++ s.drop (j + pat.length)
  | none => s

/-- JavaScript `s.split(sep)` for a one-character separator: always
returns at least one (possibly empty) piece. -/
def splitC (sep : Char) : List Char → List (List Char)
  | [] => [[]]
  | c :: cs =>
    if c = sep then [] :: splitC sep cs
    else
      match splitC sep cs with
      | [] => [[c]]
      | h :: t => (c :: h) :: t

/-- JavaScript `parts.join(sep)` for a one-character separator. -/
def joinC (sep : Char) (parts : List (List Char)) : List Char :=
  List.intercalate [sep] parts

/-- Whitespace recognised by the model of JavaScript `trim` (the source
only ever trims ASCII space, tab, carriage return and newline). -/
def isWS (c : Char) : Bool := c = ' ' || c = '\n' || c = '\t' || c = '\r'

/-- JavaScript `s.trim()`. -/
def trimL (s : List Char) : List Char :=
  ((s.dropWhile isWS).reverse.dropWhile isWS).reverse

/-- JavaScript `s.toLowerCase()` on the ASCII strings the program
compares (file extensions). -/
def toLowerL (s : List Char) : List Char := s.map Char.toLower

/-- Global removal of the regex `/<[^>]*>/g` (used by the source as
`text.replace(/<[^>]*>/g, '')` to strip HTML tags): each `<` that is
followed by a later `>` is removed together with everything up to that
first `>`; a `<` with no later `>` can start no match, so the remainder
is kept verbatim. -/
def stripTagsGo : Nat → List Char → List Char
  | 0, s => s
  | _ + 1, [] => []
  | fuel + 1, c :: cs =>
    if c = '<' then
      if cs.contains '>' then stripTagsGo fuel ((cs.dropWhile (· ≠ '>')).drop 1)
      else c :: cs
    else c :: stripTagsGo fuel cs

/-- Global removal entry point: the scan consumes at least one character
per step, so the length of the input bounds the recursion. -/
def stripTags (s : List Char) : List Char := stripTagsGo s.length s

/-- Global removal of the regex `/<\/?p>/g` (used by the source to strip
paragraph wrapper tags): removes every occurrence of `<p>` or `</p>`,
scanning left to right. -/
def stripPGo : Nat → List Char → List Char
  | 0, s => s
  | _ + 1, [] => []
  | fuel + 1, c :: cs =>
    if isPre ['<', '/', 'p', '>'] (c :: cs) then stripPGo fuel ((c :: cs).drop 4)
    else if isPre ['<', 'p', '>'] (c :: cs) then stripPGo fuel ((c :: cs).drop 3)
    else c :: stripPGo fuel cs

/-- Global removal entry point: the scan consumes at least one character
per step, so the length of the input bounds the recursion. -/
def stripP (s : List Char) : List Char := stripPGo s.length s

/-- Association-list lookup (first matching key), modelling both
JavaScript `Map.get` and property access on a plain object. -/
def lookupA {α β : Type} [DecidableEq α] (m : List (α × β)) (k : α) : Option β :=
  match m with
  | [] => none
  | (k', v) :: rest => if k' = k then some v else lookupA rest k

/-- JavaScript `Map.set` / object property assignment: overwrite the
value of an existing key in place, otherwise append the new entry. -/
def mapSet {α β : Type} [DecidableEq α] (k : α) (v : β) : List (α × β) → List (α × β)
  | [] => [(k, v)]
  | (k', v') :: rest => if k' = k then (k, v) :: rest else (k', v') :: mapSet k v rest

/-- Last index at which character `c` occurs in `s`. -/
def lastIdxOf (c : Char) (s : List Char) : Option Nat :=
  match findSub [c] s.reverse with
  | some j => some (s.length - 1 - j)
  | none => none

/-- Node `path.basename(p)` for the plain file paths the program
handles: the part after the last slash. -/
def baseName (p : List Char) : List Char :=
  match lastIdxOf '/' p with
  | some i => p.drop (i + 1)
  | none => p

/-- Node `path.extname(p)`: the suffix of the basename from its last
dot; empty when the basename has no dot or starts with its only dot. -/
def extName (p : List Char) : List Char :=
  match lastIdxOf '.' (baseName p) with
  | some i => if i = 0 then [] else (baseName p).drop i
  | none => []

/-- Decidable test that `pat` is a final segment of `s`
(JavaScript `s.endsWith(pat)`). -/
def isSuf (pat s : List Char) : Bool := isPre pat.reverse s.reverse

/-- Node `path.basename(p, ext)`: the basename with the suffix `ext`
removed when it ends with `ext` and is not `ext` itself. -/
def baseNameExt (p ext : List Char) : List Char :=
  let b := baseName p
  if b ≠ ext ∧ isSuf ext b then b.take (b.length - ext.length) else b

/-- Node `path.dirname(p)` for the paths the program handles. -/
def dirName (p : List Char) : List Char :=
  match lastIdxOf '/' p with
  | some 0 => ['/']
  | some i => p.take i
  | none => ['.']

/-- Node `path.join(dir, name)` for the joins the program performs (a
directory followed by a bare file name; `"."` joined with a name yields
the name, as Node normalizes). -/
def joinPath (dir name : List Char) : List Char :=
  if dir = ['.'] then name else dir ++ ['/'] ++ name

/-! ## Custom marked renderer (`Converter.setupMarked`, converter.js lines 34-57) -/

/-- `renderer.strong` (converter.js lines 51-53): bold inline spans
render as a `japanese` span. -/
def strongR (text : List Char) : List Char :=
  "<span class=\"japanese\">".data ++ text ++ "</span>".data

/-- `renderer.em` (converter.js lines 55-57): italic inline spans render
as a `chinese` span. -/
def emR (text : List Char) : List Char :=
  "<span class=\"chinese\">".data ++ text ++ "</span>".data

/-- `renderer.blockquote` (converter.js lines 34-48): the rendered inner
HTML of the blockquote is checked for the literal markers
`**Example**:`, `**Note**:`, `**Grammar**:` in that order; on a match
the marker (with its trailing space) and the paragraph wrapper tags are
removed and the content is wrapped in the corresponding callout div,
otherwise an ordinary blockquote is produced. -/
def blockquoteR (quote : List Char) : List Char :=
  if containsSub quote "**Example**:".data then
    "<div class=\"example\">".data
      ++ stripP (replFirst "**Example**: ".data [] quote) ++ "</div>".data
  else if containsSub quote "**Note**:".data then
    "<div class=\"note\">".data
      ++ stripP (replFirst "**Note**: ".data [] quote) ++ "</div>".data
  else if containsSub quote "**Grammar**:".data then
    "<div class=\"grammar-point\">".data
      ++ stripP (replFirst "**Grammar**: ".data [] quote) ++ "</div>".data
  else "<blockquote>".data ++ quote ++ "</blockquote>".data

/-- The inner HTML that the marked library hands to
`renderer.blockquote` for the Markdown input `> **Note**: remember this`
when the converter's custom renderer is installed: marked renders the
inline tokens of the quoted paragraph first, so the strong token
`**Note**` has already been rewritten by `renderer.strong` and the
paragraph renderer has wrapped the line in `<p>...</p>\n` by the time
the blockquote callback sees it. -/
def renderedNoteQuote : List Char :=
  "<p>".data ++ strongR "Note".data ++ ": remember this</p>\n".data

/-! ## Template extraction (`Converter.extractTemplate`, converter.js lines 60-93) -/

/-- The template value object extracted from an HTML file
(converter.js lines 70-77). -/
structure Template where
  head : List Char
  title : List Char
  styles : List Char
  externalStyles : List (List Char)
  bodyClass : List Char
  containerClass : List Char
deriving DecidableEq

/-- The hard-coded fallback template returned by
`Converter.getDefaultTemplate` when `src/template.html` is absent
(converter.js lines 105-272).  The long literal CSS text of its
`styles` field plays no role in any claim and is kept abstract as a
fixed constant. -/
def fallbackStyles : List Char := "fallback stylesheet text".data

/-- The hard-coded fallback template value (converter.js lines
105-272). -/
def fallbackTemplate : Template where
  head := "<meta charset=\"UTF-8\">\n    <meta name=\"viewport\" content=\"width=device-width, initial-scale=1.0\">".data
  title := "Generated Document".data
  styles := fallbackStyles
  externalStyles := []
  bodyClass := []
  containerClass := "container".data

/-- The path of the canonical default template co-located with the
application (`path.join(__dirname, 'template.html')`). -/
def srcTemplatePath : List Char := "src/template.html".data

/-- The mutable state of one `Converter` instance that template
extraction touches: the `templateCache` map (converter.js line 11)
plus an explicit log of every file read performed, in order. -/
structure ExtractState where
  templateCache : List (List Char × Template)
  reads : List (List Char)
deriving DecidableEq

/-- `Converter.getDefaultTemplate` (converter.js lines 95-103): read and
extract `src/template.html` when it exists (this inlines the success
path of the `extractTemplate` call it makes, caching the result and
recording the read); otherwise return the hard-coded fallback.  The
file system is the function `fileSys` (`none` models a missing or
unreadable file); the cheerio DOM extraction of converter.js lines
63-82 is the function parameter `cheerioExtract`. -/
def getDefaultTemplate (fileSys : List Char → Option (List Char))
    (cheerioExtract : List Char → Template) (st : ExtractState) :
    Template × ExtractState :=
  match fileSys srcTemplatePath with
  | some html =>
    let template := cheerioExtract html
    (template,
      { templateCache := mapSet srcTemplatePath template st.templateCache,
        reads := st.reads ++ [srcTemplatePath] })
  | none => (fallbackTemplate, st)

/-- `Converter.extractTemplate` (converter.js lines 60-93): always reads
the file at `htmlPath`; on success extracts the template, writes it into
`templateCache`, and returns it; on a read failure falls back to
`getDefaultTemplate`.  The cache is never consulted before the read. -/
def extractTemplate (fileSys : List Char → Option (List Char))
    (cheerioExtract : List Char → Template) (st : ExtractState)
    (htmlPath : List Char) : Template × ExtractState :=
  match fileSys htmlPath with
  | some html =>
    let template := cheerioExtract html
    (template,
      { templateCache := mapSet htmlPath template st.templateCache,
        reads := st.reads ++ [htmlPath] })
  | none => getDefaultTemplate fileSys cheerioExtract st

/-! ## Front matter (`Converter.mdToHtml`, converter.js lines 287-301) -/

/-- One iteration of the `forEach` over the lines of the front-matter
block (converter.js lines 293-298): split the line at every colon, keep
it only when the part before the first colon is non-empty and a colon
was present, rejoin the remainder with colons, trim both parts, and
assign into the metadata object. -/
def parseMetaLine (metadata : List (List Char × List Char)) (line : List Char) :
    List (List Char × List Char) :=
  match splitC ':' line with
  | [] => metadata
  | key :: valueParts =>
    if key ≠ [] ∧ valueParts ≠ [] then
      mapSet (trimL key) (trimL (joinC ':' valueParts)) metadata
    else metadata

/-- The front-matter extraction of `Converter.mdToHtml` (converter.js
lines 287-301): when the text starts with `---`, the closing delimiter
is the first occurrence of `---` at or after index 3 (found with
`indexOf`, hence not necessarily at the start of a line); the text
strictly between index 3 and that occurrence is parsed line by line
into the metadata object and the text after the closing `---` becomes
the trimmed body.  When the text does not start with `---`, or no
closing `---` exists, the metadata is empty and the body is the whole
text. -/
def parseFrontMatter (s : List Char) : List (List Char × List Char) × List Char :=
  if isPre "---".data s then
    let metadataEnd := jsIndexOf s "---".data 3
    if 0 < metadataEnd then
      let e := metadataEnd.toNat
      let metadataText := (s.drop 3).take (e - 3)
      let metadata := (splitC '\n' metadataText).foldl parseMetaLine []
      (metadata, trimL (s.drop (e + 3)))
    else ([], s)
  else ([], s)

/-! ## Table of contents (`Converter.generateTOC`, converter.js lines 370-463)

The regex `/<h([2-6])[^>]*>(.*?)<\/h[2-6]>/g` scans the rendered
fragment for heading elements of levels 2 through 6 in document order;
an `HMatch` is one such match (its captured level digit and inner
text).  The replace callback and the TOC construction below are the
line-by-line embedding of the callback body and of the markup builder.
-/

/-- One match of the heading regex, in document order: the captured
level (a digit 2-6) and the captured inner text. -/
structure HMatch where
  level : Nat
  text : List Char
deriving DecidableEq

/-- A heading record pushed onto the `headings` array
(converter.js line 384). -/
structure Heading where
  level : Nat
  text : List Char
  id : List Char
deriving DecidableEq

/-- The id `heading-<n>` generated from the running counter
(converter.js line 379). -/
def headingId (n : Nat) : List Char := "heading-".data ++ (toString n).data

/-- The replace callback of converter.js lines 377-392, folded over the
matches in document order with the running counter: every match of any
level 2-6 receives the next sequential id (first component: the id
attached to each match, modelling the `id="..."` attribute injected
into its opening tag), and only matches of level at most 3 are pushed
onto the `headings` array with their tag-stripped text (second
component).  The unconditional back-to-top link appended after level-2
headings touches only the rewritten content, not the TOC data, and is
not modelled. -/
def scanHeadings : List HMatch → Nat → List (HMatch × List Char) × List Heading
  | [], _ => ([], [])
  | m :: ms, counter =>
    let cleanText := stripTags m.text
    let id := headingId counter
    let rest := scanHeadings ms (counter + 1)
    ((m, id) :: rest.1,
      (if m.level ≤ 3 then [⟨m.level, cleanText, id⟩] else []) ++ rest.2)

/-- The `<li>` entry emitted for one TOC heading
(converter.js line 424). -/
def tocEntry (h : Heading) : List Char :=
  "<li><a href=\"#".data ++ h.id ++ "\" onclick=\"closeTOC()\">".data
    ++ h.text ++ "</a></li>".data

/-- The opening fragment of the TOC dropdown markup, up to and
including the outermost `<ul>` (converter.js lines 399-407). -/
def tocHeader : List Char :=
  "\n    <div class=\"toc-dropdown\">\n      <button class=\"toc-toggle\" onclick=\"toggleTOC()\">\n        <span class=\"toc-icon\">☰</span>\n        目錄 / Table of Contents\n        <span class=\"toc-arrow\">▼</span>\n      </button>\n      <div class=\"toc-content\" id=\"toc-content\">\n        <ul>".data

/-- The closing fragment appended after the per-heading loop
(converter.js lines 433-460): one more `</ul>`, the two closing divs,
and the inline toggle script. -/
def tocFooter : List Char :=
  "\n        </ul>\n      </div>\n    </div>\n    <script>\n      function toggleTOC() \x7b\n        const content = document.getElementById(\x27toc-content\x27);\n        const arrow = document.querySelector(\x27.toc-arrow\x27);\n        const isOpen = content.style.display === \x27block\x27;\n        content.style.display = isOpen ? \x27none\x27 : \x27block\x27;\n        arrow.textContent = isOpen ? \x27▼\x27 : \x27▲\x27;\n      \x7d\n      \n      function closeTOC() \x7b\n        const content = document.getElementById(\x27toc-content\x27);\n        const arrow = document.querySelector(\x27.toc-arrow\x27);\n        content.style.display = \x27none\x27;\n        arrow.textContent = \x27▼\x27;\n      \x7d\n      \n      // Close TOC when clicking outside\n      document.addEventListener(\x27click\x27, function(event) \x7b\n        const toc = document.querySelector(\x27.toc-dropdown\x27);\n        if (!toc.contains(event.target)) \x7b\n          closeTOC();\n        \x7d\n      \x7d);\n    </script>".data

/-- The `forEach` over the collected headings followed by the
close-remaining-lists loop (converter.js lines 411-431), threading the
`currentLevel` cursor, which starts at 2: one `<ul>` is opened per
level increase, one `</ul>` closed per level decrease, each heading
emits its `<li>` entry, and at the end the loop
`for (i = 2; i <= currentLevel; i++)` emits `currentLevel - 1` further
`</ul>` tags. -/
def tocBody : List Heading → Nat → List Char
  | [], currentLevel => List.flatten (List.replicate (currentLevel - 1) "</ul>".data)
  | h :: hs, currentLevel =>
    (if currentLevel < h.level then
      List.flatten (List.replicate (h.level - currentLevel) "<ul>".data)
    else if h.level < currentLevel then
      List.flatten (List.replicate (currentLevel - h.level) "</ul>".data)
    else [])
      ++ tocEntry h ++ tocBody hs h.level

/-- The TOC markup that `generateTOC` returns for a fragment whose
heading matches are `ms` (converter.js lines 394-462): empty when no
heading of level 2-3 was collected, otherwise the dropdown header, the
nested-list loop output with the trailing close loop, and the footer. -/
def generateTOCMarkup (ms : List HMatch) : List Char :=
  let headings := (scanHeadings ms 0).2
  if headings.isEmpty then []
  else tocHeader ++ tocBody headings 2 ++ tocFooter

/-- Number of (possibly overlapping) occurrences of `pat` in `s`; used
to count `<ul>` and `</ul>` tags in the generated markup. -/
def countSub (pat : List Char) : List Char → Nat
  | [] => 0
  | c :: cs => (if isPre pat (c :: cs) then 1 else 0) + countSub pat cs

/-! ## Title resolution (`Converter.applyTemplate`, converter.js lines 465-479) -/

/-- The first match of the regex `/<h1[^>]*>(.*?)<\/h1>/` attempted at
the very start of `s`: the opening `<h1` must be followed by non-`>`
characters and a `>`, and the lazily captured group runs to the first
`</h1>` after the opening tag; since `.` does not match a newline, the
match fails at this position when a newline precedes that `</h1>`. -/
def matchH1At (s : List Char) : Option (List Char) :=
  if isPre "<h1".data s then
    let afterOpen := s.drop 3
    if afterOpen.contains '>' then
      let rest := (afterOpen.dropWhile (· ≠ '>')).drop 1
      match findSub "</h1>".data rest with
      | some k => if (rest.take k).contains '\n' then none else some (rest.take k)
      | none => none
    else none
  else none

/-- The capture of the first `<h1>` element found by
`processedContent.match(/<h1[^>]*>(.*?)<\/h1>/)` (converter.js line
472), scanning start positions left to right. -/
def findH1 : List Char → Option (List Char)
  | [] => none
  | c :: cs =>
    match matchH1At (c :: cs) with
    | some t => some t
    | none => findH1 cs

/-- JavaScript `a || b` on strings: `b` when `a` is empty (falsy),
otherwise `a`. -/
def jsOr (a b : List Char) : List Char := if a = [] then b else a

/-- The title resolution of `Converter.applyTemplate` (converter.js
lines 469-479): start from `metadata.title`; when that is absent or the
empty string (both falsy), use the tag-stripped capture of the first
`<h1>` of the processed fragment; when no `<h1>` matches, use
`template.title || 'Generated Document'`. -/
def resolveTitle (metadata : List (List Char × List Char))
    (processedContent : List Char) (templateTitle : List Char) : List Char :=
  let title := lookupA metadata "title".data
  if title = none ∨ title = some [] then
    match findH1 processedContent with
    | some h1 => stripTags h1
    | none => jsOr templateTitle "Generated Document".data
  else title.getD []

/-! ## Sync dispatch (`Converter.sync`, converter.js lines 675-683) -/

/-- Result of one `Converter.sync` call: either the output path returned
by the dispatched `mdToHtml`, or the thrown error message. -/
inductive SyncResult where
  | converted (outputPath : List Char)
  | error (message : List Char)
deriving DecidableEq

/-- The output path `Converter.mdToHtml` returns (converter.js lines
278-282, 332): the given output path, or, when none is given, the
source directory joined with the source basename minus a literal `.md`
suffix plus `.html`. -/
def mdToHtmlOutput (mdPath : List Char) (outputPath : Option (List Char)) : List Char :=
  match outputPath with
  | some o => o
  | none => joinPath (dirName mdPath) (baseNameExt mdPath ".md".data ++ ".html".data)

/-- `Converter.sync` (converter.js lines 675-683): lowercase the
extension of the source path; dispatch `mdToHtml` when it is `.md`,
otherwise throw the unsupported-direction error.  The template path is
forwarded to `mdToHtml` and plays no part in the dispatch. -/
def sync (sourcePath : List Char) (targetPath : Option (List Char))
    (_templatePath : Option (List Char)) : SyncResult :=
  let sourceExt := toLowerL (extName sourcePath)
  if sourceExt = ".md".data then
    SyncResult.converted (mdToHtmlOutput sourcePath targetPath)
  else
    SyncResult.error
      ("Only Markdown to HTML conversion is supported. Input: ".data ++ sourceExt)

/-! ## Directory-watch change handling (`FileWatcher.handleFileChange`,
converter.js lines 854-893) -/

/-- The counterpart path computed by `handleFileChange`: same
directory, same basename, swapped extension; `none` for a file that is
neither `.html` nor `.md` (after lowercasing). -/
def counterpartOf (filePath : List Char) : Option (List Char) :=
  let ext := toLowerL (extName filePath)
  let dir := dirName filePath
  let name := baseNameExt filePath ext
  if ext = ".html".data then some (joinPath dir (name ++ ".md".data))
  else if ext = ".md".data then some (joinPath dir (name ++ ".html".data))
  else none

/-- `FileWatcher.handleFileChange` (converter.js lines 854-893), up to
the point where it invokes `converter.sync`: the file system is modelled
by `fsExists` and `mtime`.  The extension dispatch of lines 855-870
(embedded as `counterpartOf`) either returns early or fixes the target
path; the staleness check of lines 873-881 then returns early when the
target exists, `force` is not set, and the target's modification time
is at least the source's.  The result is the `(source, target)` pair
passed to `converter.sync` when a conversion is performed, `none` when
the event is ignored. -/
def handleFileChange (fsExists : List Char → Bool) (mtime : List Char → Int)
    (force : Bool) (filePath : List Char) : Option (List Char × List Char) :=
  match counterpartOf filePath with
  | none => none
  | some targetPath =>
    if fsExists targetPath && !force then
      if mtime filePath ≤ mtime targetPath then none
      else some (filePath, targetPath)
    else some (filePath, targetPath)

/-! ## Watcher registration (`FileWatcher.watchFile` lines 760-804 and
`FileWatcher.watchDirectory` lines 806-852 of converter.js) -/

/-- The registration state of one `FileWatcher` instance: the
`watchers` map from path to watcher handle (handles are modelled as the
ordinal of the underlying `chokidar.watch` call), the next fresh
handle, and the log of every watcher handle ever created. -/
structure WatchState where
  watchers : List (List Char × Nat)
  nextId : Nat
  created : List Nat
deriving DecidableEq

/-- `FileWatcher.watchFile` (converter.js lines 760-804): returns
immediately when `watchers` already has the source path; otherwise
creates a fresh chokidar watcher and registers it under the path. -/
def watchFile (st : WatchState) (sourcePath : List Char) : WatchState :=
  if (lookupA st.watchers sourcePath).isSome then st
  else
    { watchers := mapSet sourcePath st.nextId st.watchers,
      nextId := st.nextId + 1,
      created := st.created ++ [st.nextId] }

/-- `FileWatcher.watchDirectory` (converter.js lines 806-852): always
creates a fresh chokidar watcher and stores it under the directory
path, with no already-registered check. -/
def watchDirectory (st : WatchState) (dirPath : List Char) : WatchState :=
  { watchers := mapSet dirPath st.nextId st.watchers,
    nextId := st.nextId + 1,
    created := st.created ++ [st.nextId] }

/-- The keys of the `watchers` map are pairwise distinct, so the map
holds exactly one handle per registered path. -/
def oneHandlePerPath (watchers : List (List Char × Nat)) : Prop :=
  (watchers.map Prod.fst).Nodup

/-! ## Concrete instances used by counterexamples and witnesses -/

/-- A one-file file system for exercising template extraction: only
`a.html` exists. -/
def czFileSys : List Char → Option (List Char) :=
  fun p => if p = "a.html".data then some "<html><head></head></html>".data else none

/-- A concrete stand-in for the cheerio extraction: the DOM analysis of
converter.js lines 63-82 is third-party; its value is irrelevant to the
caching behaviour under study. -/
def czCheerio : List Char → Template :=
  fun html => { fallbackTemplate with styles := html }

/-- The empty extraction state of a fresh `Converter`. -/
def czState : ExtractState := ⟨[], []⟩

/-- State after extracting `a.html` once. -/
def czState1 : ExtractState := (extractTemplate czFileSys czCheerio czState "a.html".data).2

/-- State after extracting `a.html` twice. -/
def czState2 : ExtractState := (extractTemplate czFileSys czCheerio czState1 "a.html".data).2

/-- Heading matches used as concrete TOC input: levels 2, 4, 3 with one
tagged text. -/
def c4ms : List HMatch := [⟨2, "A".data⟩, ⟨4, "<em>B</em>".data⟩, ⟨3, "C".data⟩]

/-- Concrete existence predicate for the directory-watch witness: every
path exists. -/
def c5Exists : List Char → Bool := fun _ => true

/-- Concrete modification times for the directory-watch witness: the
HTML counterpart is older than the Markdown source. -/
def c5Mtime : List Char → Int := fun p => if p = "d/a.html".data then 2 else 3

/-- Metadata object with a present but empty `title` value, as produced
by a front-matter line `title:`. -/
def c7meta : List (List Char × List Char) := [("title".data, [])]

/-- Watcher state after registering directory `d` once on a fresh
`FileWatcher`. -/
def wdState1 : WatchState := watchDirectory ⟨[], 0, []⟩ "d".data

/-- Watcher state after registering directory `d` twice. -/
def wdState2 : WatchState := watchDirectory wdState1 "d".data

/-! ## Helper lemmas -/

theorem lookupA_mapSet_self {α β : Type} [DecidableEq α] (k : α) (v : β) :
    ∀ m : List (α × β), lookupA (mapSet k v m) k = some v := by
  intro m
  induction m with
  | nil => simp [mapSet, lookupA]
  | cons hd tl ih =>
    obtain ⟨k', v'⟩ := hd
    by_cases hk : k' = k
    · simp [mapSet, hk, lookupA]
    · simp [mapSet, hk, lookupA, ih]

theorem mem_map_fst_mapSet {α β : Type} [DecidableEq α] (k a : α) (v : β) :
    ∀ m : List (α × β),
      a ∈ (mapSet k v m).map Prod.fst ↔ a ∈ m.map Prod.fst ∨ a = k := by
  intro m
  induction m with
  | nil => simp [mapSet]
  | cons hd tl ih =>
    obtain ⟨k', v'⟩ := hd
    simp only [mapSet]
    split
    · rename_i hk
      subst hk
      simp only [List.map_cons, List.mem_cons]
      tauto
    · rename_i hk
      simp only [List.map_cons, List.mem_cons, ih]
      tauto

theorem nodup_map_fst_mapSet {α β : Type} [DecidableEq α] (k : α) (v : β) :
    ∀ m : List (α × β),
      (m.map Prod.fst).Nodup → ((mapSet k v m).map Prod.fst).Nodup := by
  intro m
  induction m with
  | nil => simp [mapSet]
  | cons hd tl ih =>
    obtain ⟨k', v'⟩ := hd
    intro hn
    simp only [List.map_cons, List.nodup_cons] at hn
    by_cases hk : k' = k
    · subst hk
      simpa [mapSet, List.nodup_cons] using hn
    · simp only [mapSet, if_neg hk, List.map_cons, List.nodup_cons]
      refine ⟨?_, ih hn.2⟩
      intro hmem
      rcases (mem_map_fst_mapSet k k' v tl).1 hmem with h | h
      · exact hn.1 h
      · exact hk h

theorem splitC_ne_nil (sep : Char) : ∀ s : List Char, splitC sep s ≠ [] := by
  intro s
  induction s with
  | nil => simp [splitC]
  | cons c cs ih =>
    by_cases hc : c = sep
    · simp [splitC, hc]
    · simp only [splitC, if_neg hc]
      cases h : splitC sep cs with
      | nil => exact absurd h ih
      | cons x xs => simp

theorem splitC_append_cons (sep : Char) (b : List Char) :
    ∀ a : List Char, splitC sep (a ++ sep :: b) = splitC sep a ++ splitC sep b := by
  intro a
  induction a with
  | nil => simp [splitC]
  | cons c cs ih =>
    by_cases hc : c = sep
    · simp [splitC, hc, ih]
    · cases h : splitC sep cs with
      | nil => exact absurd h (splitC_ne_nil sep cs)
      | cons x xs =>
        have hl : splitC sep (cs ++ sep :: b) = x :: (xs ++ splitC sep b) := by
          rw [ih, h, List.cons_append]
        calc splitC sep ((c :: cs) ++ sep :: b)
            = splitC sep (c :: (cs ++ sep :: b)) := by rw [List.cons_append]
          _ = (match splitC sep (cs ++ sep :: b) with
                | [] => [[c]] | hh :: t => (c :: hh) :: t) := by simp [splitC, hc]
          _ = (c :: x) :: (xs ++ splitC sep b) := by rw [hl]
          _ = splitC sep (c :: cs) ++ splitC sep b := by simp [splitC, hc, h]

theorem parseMetaLine_nil (acc : List (List Char × List Char)) :
    parseMetaLine acc [] = acc := by
  simp [parseMetaLine, splitC]

theorem scanHeadings_ids (ms : List HMatch) :
    ∀ n, (scanHeadings ms n).1.map Prod.snd = (List.range' n ms.length).map headingId := by
  induction ms with
  | nil => intro n; simp [scanHeadings]
  | cons m ms ih =>
    intro n
    simp only [scanHeadings, List.map_cons, List.length_cons, List.range'_succ, ih]

theorem scanHeadings_mem_fst (ms : List HMatch) :
    ∀ n p, p ∈ (scanHeadings ms n).1 → p.1 ∈ ms := by
  induction ms with
  | nil => intro n p hp; simp [scanHeadings] at hp
  | cons m ms ih =>
    intro n p hp
    simp only [scanHeadings, List.mem_cons] at hp
    rcases hp with h | h
    · subst h; simp
    · exact List.mem_cons_of_mem _ (ih (n + 1) p h)

theorem scanHeadings_toc_filter (ms : List HMatch) :
    ∀ n, (scanHeadings ms n).2
      = ((scanHeadings ms n).1.filter (fun p => decide (p.1.level ≤ 3))).map
          (fun p => ⟨p.1.level, stripTags p.1.text, p.2⟩) := by
  induction ms with
  | nil => intro n; simp [scanHeadings]
  | cons m ms ih =>
    intro n
    by_cases hm : m.level ≤ 3
    · simp [scanHeadings, hm, ih]
    · simp [scanHeadings, hm, ih]

/-! ## Claim theorems -/

/-- C1 (code bug evidence).  For the Markdown input
`> **Note**: remember this`, the inner HTML that reaches
`renderer.blockquote` has already had its strong token rewritten by
`renderer.strong`, so it does not contain the literal marker
`**Note**:`; the blockquote therefore renders as an ordinary
`<blockquote>` and the promised `<div class="note">remember this</div>`
callout is never produced. -/
theorem note_blockquote_renders_plain :
    blockquoteR renderedNoteQuote
      = "<blockquote><p><span class=\"japanese\">Note</span>: remember this</p>\n</blockquote>".data
    ∧ containsSub (blockquoteR renderedNoteQuote) "<div class=\"note\">".data = false
    ∧ containsSub renderedNoteQuote "**Note**:".data = false := by
  decide

/-- C3 (code bug evidence).  The TOC markup is never balanced: for the
single level-2 heading sequence the markup opens one `<ul>` but closes
two `</ul>`, and for the non-monotonic sequence 2,3,2,4,2 it opens two
and closes three — the close-remaining-lists loop of converter.js line
429 starts at 2 instead of 3 and so double-closes the outer list that
the footer also closes. -/
theorem generateTOC_unbalanced_ul :
    countSub "<ul>".data (generateTOCMarkup [⟨2, "A".data⟩]) = 1
    ∧ countSub "</ul>".data (generateTOCMarkup [⟨2, "A".data⟩]) = 2
    ∧ countSub "<ul>".data (generateTOCMarkup
        [⟨2, "a".data⟩, ⟨3, "b".data⟩, ⟨2, "c".data⟩, ⟨4, "d".data⟩, ⟨2, "e".data⟩]) = 2
    ∧ countSub "</ul>".data (generateTOCMarkup
        [⟨2, "a".data⟩, ⟨3, "b".data⟩, ⟨2, "c".data⟩, ⟨4, "d".data⟩, ⟨2, "e".data⟩]) = 3 := by
  decide

/-- C2 (counterexample).  After one successful extraction of `a.html`
the template is in the cache, yet a second extraction of the same path
reads the file again: the read log grows from one entry to two, so the
later call does not return the cached value without re-reading. -/
theorem extractTemplate_rereads_cached_path :
    (lookupA czState1.templateCache "a.html".data).isSome = true
    ∧ czState1.reads = ["a.html".data]
    ∧ czState2.reads = ["a.html".data, "a.html".data]
    ∧ czState2.reads ≠ czState1.reads := by
  decide

/-- C2 (amended).  A successful extraction returns the extracted
template, writes it into `templateCache` under the path, and appends
the path to the read log; a second extraction of the same path returns
an equal template but reads the file again — the cache is populated and
never consulted. -/
theorem extractTemplate_cache_write_only
    (fileSys : List Char → Option (List Char))
    (cheerioExtract : List Char → Template) (st : ExtractState)
    (p html : List Char) (h : fileSys p = some html) :
    (extractTemplate fileSys cheerioExtract st p).1 = cheerioExtract html
    ∧ lookupA (extractTemplate fileSys cheerioExtract st p).2.templateCache p
        = some (cheerioExtract html)
    ∧ (extractTemplate fileSys cheerioExtract st p).2.reads = st.reads ++ [p]
    ∧ (extractTemplate fileSys cheerioExtract
          (extractTemplate fileSys cheerioExtract st p).2 p).1 = cheerioExtract html
    ∧ (extractTemplate fileSys cheerioExtract
          (extractTemplate fileSys cheerioExtract st p).2 p).2.reads
        = st.reads ++ [p] ++ [p] := by
  simp [extractTemplate, h, lookupA_mapSet_self]

/-- C2 (witness). -/
theorem extractTemplate_cache_write_only_witness :
    (extractTemplate czFileSys czCheerio czState "a.html".data).1
        = czCheerio "<html><head></head></html>".data
    ∧ czState2.reads = [] ++ ["a.html".data] ++ ["a.html".data] := by
  have h := extractTemplate_cache_write_only czFileSys czCheerio czState
    "a.html".data "<html><head></head></html>".data (by decide)
  exact ⟨h.1, h.2.2.2.2⟩

/-- C4 (confirmed).  For any document-order sequence of heading matches
of levels 2 through 6, the replace callback assigns the ids
`heading-0`, `heading-1`, ... in strictly increasing document order,
counting every match regardless of level, and the collected `headings`
array holds exactly the level-2 and level-3 matches, in document order,
each with its assigned id and its tag-stripped text. -/
theorem generateTOC_ids_and_toc_entries (ms : List HMatch)
    (h : ∀ m ∈ ms, 2 ≤ m.level ∧ m.level ≤ 6) :
    (scanHeadings ms 0).1.map Prod.snd = (List.range ms.length).map headingId
    ∧ (scanHeadings ms 0).2
        = ((scanHeadings ms 0).1.filter
            (fun p => decide (p.1.level = 2 ∨ p.1.level = 3))).map
            (fun p => ⟨p.1.level, stripTags p.1.text, p.2⟩) := by
  constructor
  · rw [List.range_eq_range']
    exact scanHeadings_ids ms 0
  · rw [scanHeadings_toc_filter ms 0]
    congr 1
    apply List.filter_congr
    intro p hp
    have hlvl := h p.1 (scanHeadings_mem_fst ms 0 p hp)
    have : (p.1.level ≤ 3) ↔ (p.1.level = 2 ∨ p.1.level = 3) := by omega
    simp [this]

/-- C4 (witness). -/
theorem generateTOC_ids_and_toc_entries_witness :
    (scanHeadings c4ms 0).1.map Prod.snd = (List.range c4ms.length).map headingId
    ∧ (scanHeadings c4ms 0).2
        = ((scanHeadings c4ms 0).1.filter
            (fun p => decide (p.1.level = 2 ∨ p.1.level = 3))).map
            (fun p => ⟨p.1.level, stripTags p.1.text, p.2⟩) :=
  generateTOC_ids_and_toc_entries c4ms (by decide)

/-- C9 (counterexample).  Registering the directory `d` twice on a
fresh watcher is not a no-op: the second registration creates a second
chokidar watcher and replaces the registered handle (handle 0 becomes
handle 1), so the existing handle does not stay in place. -/
theorem watchDirectory_second_registration_not_noop :
    lookupA wdState1.watchers "d".data = some 0
    ∧ lookupA wdState2.watchers "d".data = some 1
    ∧ wdState2.created = [0, 1]
    ∧ wdState2 ≠ wdState1 := by
  decide

/-- C9 (amended).  `watchFile` on an already-registered path is a no-op
that leaves the state (hence the existing handle) unchanged; both
operations keep exactly one handle per registered path; but
`watchDirectory` on an already-registered path creates a fresh watcher
and overwrites the map entry with the new handle. -/
theorem watcher_registration_amended :
    (∀ (st : WatchState) (p : List Char),
      (lookupA st.watchers p).isSome = true → watchFile st p = st)
    ∧ (∀ (st : WatchState) (p : List Char),
        lookupA (watchDirectory st p).watchers p = some st.nextId
        ∧ (watchDirectory st p).created = st.created ++ [st.nextId])
    ∧ (∀ (st : WatchState) (p : List Char), oneHandlePerPath st.watchers →
        oneHandlePerPath (watchFile st p).watchers
        ∧ oneHandlePerPath (watchDirectory st p).watchers) := by
  refine ⟨?_, ?_, ?_⟩
  · intro st p h
    simp [watchFile, h]
  · intro st p
    exact ⟨lookupA_mapSet_self p st.nextId st.watchers, rfl⟩
  · intro st p h
    constructor
    · by_cases hp : (lookupA st.watchers p).isSome = true
      · simpa [watchFile, hp] using h
      · simp only [watchFile, hp, Bool.false_eq_true, if_false]
        exact nodup_map_fst_mapSet p st.nextId st.watchers h
    · exact nodup_map_fst_mapSet p st.nextId st.watchers h

/-- C9 (witness). -/
theorem watcher_registration_amended_witness :
    watchFile (watchFile ⟨[], 0, []⟩ "f.md".data) "f.md".data
      = watchFile ⟨[], 0, []⟩ "f.md".data
    ∧ lookupA (watchDirectory ⟨[], 0, []⟩ "d".data).watchers "d".data = some 0
    ∧ oneHandlePerPath (watchFile ⟨[], 0, []⟩ "f.md".data).watchers :=
  ⟨watcher_registration_amended.1 _ _ (by decide),
   (watcher_registration_amended.2.1 ⟨[], 0, []⟩ "d".data).1,
   (watcher_registration_amended.2.2 ⟨[], 0, []⟩ "f.md".data (by simp [oneHandlePerPath])).1⟩

/-- C5 (confirmed).  Whenever the directory-watch change handler decides
to convert, the converted pair is the changed file and its counterpart
(same basename, swapped extension), and the counterpart either does not
exist, or `force` is set, or its modification time is strictly older
than the source's — so a counterpart that is strictly newer than the
source is never overwritten without `force`. -/
theorem handleFileChange_staleness_gate (fsExists : List Char → Bool)
    (mtime : List Char → Int) (force : Bool) (filePath s t : List Char)
    (h : handleFileChange fsExists mtime force filePath = some (s, t)) :
    s = filePath ∧ counterpartOf filePath = some t
    ∧ (fsExists t = false ∨ force = true ∨ mtime t < mtime filePath) := by
  unfold handleFileChange at h
  cases hc : counterpartOf filePath with
  | none => rw [hc] at h; exact absurd h (by simp)
  | some tgt =>
    rw [hc] at h
    dsimp only at h
    by_cases h2 : fsExists tgt && !force
    · rw [if_pos h2] at h
      by_cases h3 : mtime filePath ≤ mtime tgt
      · rw [if_pos h3] at h; exact absurd h (by simp)
      · rw [if_neg h3] at h
        have hp : filePath = s ∧ tgt = t := by simpa using h
        obtain ⟨hs, ht⟩ := hp
        subst hs; subst ht
        exact ⟨rfl, rfl, Or.inr (Or.inr (by omega))⟩
    · rw [if_neg h2] at h
      have hp : filePath = s ∧ tgt = t := by simpa using h
      obtain ⟨hs, ht⟩ := hp
      subst hs; subst ht
      refine ⟨rfl, rfl, ?_⟩
      cases hfo : force
      · cases hfe : fsExists tgt
        · exact Or.inl rfl
        · exact absurd (by simp [hfe, hfo]) h2
      · exact Or.inr (Or.inl rfl)

/-- C5 (witness). -/
theorem handleFileChange_staleness_gate_witness :
    "d/a.md".data = "d/a.md".data
    ∧ counterpartOf "d/a.md".data = some "d/a.html".data
    ∧ (c5Exists "d/a.html".data = false ∨ false = true
        ∨ c5Mtime "d/a.html".data < c5Mtime "d/a.md".data) :=
  handleFileChange_staleness_gate c5Exists c5Mtime false "d/a.md".data
    "d/a.md".data "d/a.html".data (by decide)

/-- C7 (counterexample).  A front-matter line `title:` yields a present
but empty metadata `title`; the claim requires this present value to be
used, but JavaScript truthiness skips the empty string and the first
`<h1>` text wins instead. -/
theorem title_empty_metadata_cex :
    lookupA c7meta "title".data = some []
    ∧ resolveTitle c7meta "<h1>Bar</h1>".data "T".data = "Bar".data
    ∧ "Bar".data ≠ ([] : List Char) := by
  decide

/-- C7 (amended).  The `<title>` text is resolved in this strict order:
the metadata `title` when present and non-empty; otherwise the
tag-stripped text of the first `<h1>` of the rendered fragment;
otherwise the template's extracted title when non-empty; otherwise the
literal `Generated Document`. -/
theorem title_resolution_amended (metadata : List (List Char × List Char))
    (content tmplTitle : List Char) :
    (∀ ti, lookupA metadata "title".data = some ti → ti ≠ [] →
        resolveTitle metadata content tmplTitle = ti)
    ∧ ((lookupA metadata "title".data = none
          ∨ lookupA metadata "title".data = some []) →
        (∀ h1, findH1 content = some h1 →
            resolveTitle metadata content tmplTitle = stripTags h1)
        ∧ (findH1 content = none → tmplTitle ≠ [] →
            resolveTitle metadata content tmplTitle = tmplTitle)
        ∧ (findH1 content = none → tmplTitle = [] →
            resolveTitle metadata content tmplTitle
              = "Generated Document".data)) := by
  constructor
  · intro ti hti hne
    simp [resolveTitle, hti, hne]
  · intro hcond
    refine ⟨?_, ?_, ?_⟩
    · intro h1 hh1
      simp [resolveTitle, hcond, hh1]
    · intro hn hne
      simp [resolveTitle, hcond, hn, jsOr, hne]
    · intro hn he
      simp [resolveTitle, hcond, hn, jsOr, he]

/-- C7 (witness). -/
theorem title_resolution_amended_witness :
    resolveTitle [("title".data, "Foo".data)] "<h1>Bar</h1>".data "T".data
      = "Foo".data :=
  (title_resolution_amended [("title".data, "Foo".data)] "<h1>Bar</h1>".data
      "T".data).1 "Foo".data (by decide) (by decide)

/-- C8 (confirmed).  `Converter.sync` dispatches the Markdown-to-HTML
conversion and returns its output path exactly when the source
extension (the lowercased `path.extname` the code compares) is `.md`;
for every other source extension, in particular `.html`, it throws the
unsupported-direction error and performs no conversion. -/
theorem sync_dispatch_only_markdown :
    (∀ src tgt tpl, toLowerL (extName src) = ".md".data →
        sync src tgt tpl = SyncResult.converted (mdToHtmlOutput src tgt))
    ∧ (∀ src tgt tpl, toLowerL (extName src) ≠ ".md".data →
        sync src tgt tpl = SyncResult.error
          ("Only Markdown to HTML conversion is supported. Input: ".data
            ++ toLowerL (extName src)))
    ∧ (∀ tgt tpl, sync "doc.html".data tgt tpl = SyncResult.error
        "Only Markdown to HTML conversion is supported. Input: .html".data) := by
  refine ⟨?_, ?_, ?_⟩
  · intro src tgt tpl h
    simp [sync, h]
  · intro src tgt tpl h
    simp [sync, h]
  · intro tgt tpl
    rfl

/-- C8 (witness). -/
theorem sync_dispatch_only_markdown_witness :
    sync "doc.md".data (some "out.html".data) none
      = SyncResult.converted (mdToHtmlOutput "doc.md".data (some "out.html".data))
    ∧ sync "doc.pdf".data none none = SyncResult.error
        ("Only Markdown to HTML conversion is supported. Input: ".data
          ++ toLowerL (extName "doc.pdf".data)) :=
  ⟨sync_dispatch_only_markdown.1 "doc.md".data (some "out.html".data) none
      (by decide),
   sync_dispatch_only_markdown.2.1 "doc.pdf".data none none (by decide)⟩

/-- C10 (confirmed).  The extension comparison in `Converter.sync` is
case-insensitive: a conversion is dispatched exactly when the lowercased
extension is `.md`, so `.MD` and `.Md` sources convert even though
their raw extension differs from `.md`, and the unsupported-direction
error is raised exactly when the lowercased extension differs from
`.md`. -/
theorem sync_ext_case_insensitive :
    (∀ src tgt tpl, (∃ o, sync src tgt tpl = SyncResult.converted o)
        ↔ toLowerL (extName src) = ".md".data)
    ∧ sync "a.MD".data none none = SyncResult.converted "a.MD.html".data
    ∧ extName "a.MD".data ≠ ".md".data := by
  refine ⟨?_, by decide, by decide⟩
  intro src tgt tpl
  constructor
  · rintro ⟨o, ho⟩
    by_contra hne
    simp [sync, hne] at ho
  · intro h
    exact ⟨mdToHtmlOutput src tgt, by simp [sync, h]⟩

/-- C10 (witness). -/
theorem sync_ext_case_insensitive_witness :
    ∃ o, sync "b.Md".data none none = SyncResult.converted o :=
  (sync_ext_case_insensitive.1 "b.Md".data none none).mpr (by decide)

/-- C6 (counterexample).  The source `---\na: b---c\n---\nbody` begins
with a valid front-matter block in the claim's sense (opening line
`---`, closed by the later line-initial `---`) declaring the single
pair `a : b---c`; but `indexOf('---', 3)` finds the `---` inside the
value first, so the parsed metadata maps `a` to `b` instead of
`b---c`, and the tail of the block (including the real closing
delimiter) leaks into the body. -/
theorem frontMatter_midline_delimiter_cex :
    parseFrontMatter "---\na: b---c\n---\nbody".data
      = ([("a".data, "b".data)], "c\n---\nbody".data)
    ∧ parseFrontMatter "---\na: b---c\n---\nbody".data
      ≠ ([("a".data, "b---c".data)], "body".data)
    ∧ containsSub (parseFrontMatter "---\na: b---c\n---\nbody".data).2
        "---".data = true := by
  decide

/-- C6 (amended).  The closing delimiter is the first occurrence of
`---` at or after index 3, found anywhere in the text rather than only
at the start of a line.  When that first occurrence is the line-initial
closing delimiter (hypothesis on `jsIndexOf`), the metadata is exactly
the fold of the claim's line rule (split at the first colon, remainder
rejoined with colons, both parts trimmed) over the block's lines, and
the body is the text after the delimiter, trimmed.  A source not
starting with `---` yields an empty mapping and an unchanged body, and
so does a source with no closing `---`. -/
theorem frontMatter_parse_amended :
    (∀ s : List Char, isPre "---".data s = false → parseFrontMatter s = ([], s))
    ∧ (∀ s : List Char, isPre "---".data s = true →
        jsIndexOf s "---".data 3 = -1 → parseFrontMatter s = ([], s))
    ∧ (∀ m r : List Char,
        jsIndexOf ("---\n".data ++ m ++ "\n---".data ++ r) "---".data 3
          = ((m.length + 5 : Nat) : Int) →
        parseFrontMatter ("---\n".data ++ m ++ "\n---".data ++ r)
          = ((splitC '\n' m).foldl parseMetaLine [], trimL r)) := by
  refine ⟨?_, ?_, ?_⟩
  · intro s hs
    simp [parseFrontMatter, hs]
  · intro s hs hidx
    simp [parseFrontMatter, hs, hidx]
  · intro m r h
    have hpre : isPre "---".data ("---\n".data ++ m ++ "\n---".data ++ r) = true := by
      simp [isPre]
    have hassoc : "---\n".data ++ m ++ "\n---".data ++ r
        = ['-', '-', '-', '\n'] ++ (m ++ ('\n' :: '-' :: '-' :: '-' :: r)) := by
      simp [List.append_assoc]
    unfold parseFrontMatter
    rw [if_pos hpre, h]
    have hpos : (0 : Int) < ((m.length + 5 : Nat) : Int) := by
      exact_mod_cast Nat.succ_pos (m.length + 4)
    rw [if_pos hpos]
    have htn : ((m.length + 5 : Nat) : Int).toNat = m.length + 5 := by
      omega
    rw [htn]
    dsimp only
    rw [Prod.mk.injEq]
    constructor
    · -- metadata component
      have hdrop : ("---\n".data ++ m ++ "\n---".data ++ r).drop 3
          = '\n' :: (m ++ ('\n' :: '-' :: '-' :: '-' :: r)) := by
        rw [hassoc]
        rfl
      rw [hdrop]
      have hms : m.length + 5 - 3 = m.length + 2 := by omega
      rw [hms]
      have htake : ('\n' :: (m ++ ('\n' :: '-' :: '-' :: '-' :: r))).take (m.length + 2)
          = '\n' :: (m ++ ['\n']) := by
        rw [List.take_succ_cons, List.take_append]
        rfl
      rw [htake]
      have hsplit : splitC '\n' ('\n' :: (m ++ ['\n']))
          = [] :: (splitC '\n' m ++ [[]]) := by
        have h1 : splitC '\n' ('\n' :: (m ++ ['\n'])) = [] :: splitC '\n' (m ++ ['\n']) := by
          simp [splitC]
        have h2 : splitC '\n' (m ++ ['\n']) = splitC '\n' m ++ [[]] := by
          have := splitC_append_cons '\n' [] m
          simpa [splitC] using this
        rw [h1, h2]
      rw [hsplit]
      rw [List.foldl_cons, parseMetaLine_nil, List.foldl_append]
      simp [parseMetaLine_nil]
    · -- body component
      have hlen : ("---\n".data ++ m ++ "\n---".data).length = m.length + 8 := by
        simp [List.length_append]
      have hdrop8 : ("---\n".data ++ m ++ "\n---".data ++ r).drop (m.length + 5 + 3) = r := by
        have : ("---\n".data ++ m ++ "\n---".data ++ r)
            = ("---\n".data ++ m ++ "\n---".data) ++ r := by
          simp [List.append_assoc]
        rw [this]
        have h8 : m.length + 5 + 3 = m.length + 8 := by omega
        rw [h8]
        exact List.drop_left' hlen
      rw [hdrop8]

/-- C6 (witness). -/
theorem frontMatter_parse_amended_witness :
    parseFrontMatter ("---\n".data ++ "title: Foo".data ++ "\n---".data ++ "\n# Bar".data)
      = ((splitC '\n' "title: Foo".data).foldl parseMetaLine [], trimL "\n# Bar".data) :=
  frontMatter_parse_amended.2.2 "title: Foo".data "\n# Bar".data (by decide)

end Md2Web
